import Mathlib

/-!
Verification of the STEREO/SEPT loader (stereo_loader/__init__.py).

Shallow embedding conventions:
  * machine floats are modelled as exact rationals;
  * a NaN cell is modelled as none : Option Rat;
  * a value produced by np.sqrt is modelled symbolically (MeanE.gsqrt),
    so that equality with a geometric mean can be decided by squaring;
  * Python exceptions are modelled by an explicit error type (PyErr).
-/

set_option maxRecDepth 4000

set_option allowUnsafeReducibility true in
attribute [semireducible] Rat.mul Rat.add Rat.div Rat.sub Rat.neg Rat.inv Rat.ofScientific

namespace StereoLoader

/-- Numeric value of a list of decimal digit characters, most significant first. -/
def digitsVal (cs : List Char) : ℕ :=
  cs.foldl (fun a c => 10 * a + (c.toNat - 48)) 0

/-- Parse an unsigned decimal literal (digits, optionally a dot and more digits),
mirroring what Python float() accepts on the tokens appearing in SEPT data. -/
def parseUnsignedDec (cs : List Char) : Option ℚ :=
  let ip := cs.takeWhile Char.isDigit
  let rest := cs.dropWhile Char.isDigit
  match rest with
  | [] => if ip.isEmpty then none else some (digitsVal ip)
  | '.' :: fp =>
      if fp.all Char.isDigit && !(ip.isEmpty && fp.isEmpty) then
        some ((digitsVal ip * 10 ^ fp.length + digitsVal fp : ℚ) / 10 ^ fp.length)
      else none
  | _ => none

/-- Strip whitespace from both ends of a character list (Python float() and
str.strip() tolerate surrounding whitespace). -/
def trimChars (cs : List Char) : List Char :=
  ((cs.dropWhile Char.isWhitespace).reverse.dropWhile Char.isWhitespace).reverse

/-- Python float() on the tokens appearing here: optional surrounding
whitespace, optional sign, then an unsigned decimal literal. -/
def parseDecChars (cs : List Char) : Option ℚ :=
  match trimChars cs with
  | '-' :: rest => (parseUnsignedDec rest).map (fun q => -q)
  | '+' :: rest => parseUnsignedDec rest
  | rest => parseUnsignedDec rest

/-- Python float() on a string. -/
def parseDecimal (s : String) : Option ℚ :=
  parseDecChars s.data

/-- Whether sep is a leading segment of cs. -/
def leadSeg : List Char → List Char → Bool
  | [], _ => true
  | _ :: _, [] => false
  | a :: as, b :: bs => a == b && leadSeg as bs

/-- Characters of cs before the first occurrence of sep (all of cs when sep
does not occur): this is Python s.split(sep)[0]. -/
def takeUntilSeq (sep : List Char) : List Char → List Char
  | [] => []
  | c :: rest => if leadSeg sep (c :: rest) then [] else c :: takeUntilSeq sep rest

/-- Python s.split(sep) for a single-character separator. -/
def splitOnChar (sep : Char) : List Char → List (List Char)
  | [] => [[]]
  | c :: rest =>
    let r := splitOnChar sep rest
    if c = sep then [] :: r
    else
      match r with
      | [] => [[c]]
      | h :: t => (c :: h) :: t

/-- Mirrors lines 146-151 of the source: an energy-range label such as
"45.0-55.0 keV" is split at " keV", the leading part is split at "-", and the
first two pieces are parsed as floats, giving the lower and upper bounds. -/
def parseRange (s : String) : Option (ℚ × ℚ) :=
  let clims := splitOnChar '-' (takeUntilSeq " keV".data s.data)
  match parseDecChars (clims.getD 0 []), parseDecChars (clims.getD 1 []) with
  | some lo, some up => some (lo, up)
  | _, _ => none

/-- Exact model of a stored mean-energy value.  The electron catalog computes
np.sqrt(upper*lower) (line 151), modelled symbolically as gsqrt lo up; the ion
catalog stores literal decimal constants (line 160), modelled as const q. -/
inductive MeanE where
  | gsqrt (lo up : ℚ)
  | const (q : ℚ)
deriving DecidableEq

/-- Square of the real number denoted by a MeanE value. -/
def MeanE.sq : MeanE → ℚ
  | .gsqrt lo up => lo * up
  | .const q => q * q

/-- The real number denoted by a MeanE value is nonnegative.  This holds by
construction for a square root and must be checked for a stored constant. -/
def MeanE.nonnegChk : MeanE → Bool
  | .gsqrt _ _ => true
  | .const q => decide (0 ≤ q)

/-- A nonnegative real x equals sqrt(lo*up) iff x*x = lo*up.  This checker
decides whether a stored MeanE value is exactly the geometric mean of the
bounds parsed from the given channel label. -/
def geomMeanB (m : MeanE) (label : String) : Bool :=
  match parseRange label with
  | some (lo, up) => m.nonnegChk && decide (m.sq = lo * up)
  | none => false

/-- Proposition form of geomMeanB. -/
def isGeomMeanOf (m : MeanE) (label : String) : Prop := geomMeanB m label = true

instance (m : MeanE) (label : String) : Decidable (isGeomMeanOf m label) :=
  inferInstanceAs (Decidable (_ = true))

/-- The real number denoted by m lies within tol of sqrt(lo*up) of the bounds
parsed from the label.  For a symbolic square root this is exact equality of the
bounds; for a stored constant q with q ≥ tol ≥ 0 the condition
(q-tol)^2 ≤ lo*up ≤ (q+tol)^2 is equivalent to |q - sqrt(lo*up)| ≤ tol. -/
def geomMeanWithinB (tol : ℚ) (m : MeanE) (label : String) : Bool :=
  match parseRange label with
  | some (lo, up) =>
    match m with
    | .gsqrt lo2 up2 => decide (lo2 = lo) && decide (up2 = up)
    | .const q => decide (tol ≤ q) && decide ((q - tol) * (q - tol) ≤ lo * up)
        && decide (lo * up ≤ (q + tol) * (q + tol))
  | none => false

/-- Proposition form of geomMeanWithinB. -/
def isGeomMeanWithin (tol : ℚ) (m : MeanE) (label : String) : Prop :=
  geomMeanWithinB tol m label = true

instance (tol : ℚ) (m : MeanE) (label : String) : Decidable (isGeomMeanWithin tol m label) :=
  inferInstanceAs (Decidable (_ = true))

/-- Channel-range labels of the electron catalog, copied verbatim from line 144. -/
def electron_ch_strings : List String :=
  ["45.0-55.0 keV", "55.0-65.0 keV", "65.0-75.0 keV", "75.0-85.0 keV",
   "85.0-105.0 keV", "105.0-125.0 keV", "125.0-145.0 keV", "145.0-165.0 keV",
   "165.0-195.0 keV", "195.0-225.0 keV", "225.0-255.0 keV", "255.0-295.0 keV",
   "295.0-335.0 keV", "335.0-375.0 keV", "375.0-425.0 keV"]

/-- Mean energies of the electron catalog: the loop at lines 145-151 parses each
label and stores np.sqrt(upper*lower).  The fallback branch is unreachable for
the fifteen labels above (every label parses; proved below). -/
def electronMeanE : List MeanE :=
  electron_ch_strings.map (fun s =>
    match parseRange s with
    | some (lo, up) => MeanE.gsqrt lo up
    | none => MeanE.const 0)

/-- A channel catalog: bin ids, range labels, bin widths, mean energies
(the four columns of the channels dictionaries at lines 153-160). -/
structure Catalog where
  bins : List ℕ
  ch_strings : List String
  DE : List ℚ
  mean_E : List MeanE
deriving DecidableEq

/-- Electron channel dictionary (lines 153-156). -/
def echannels : Catalog :=
  { bins := [2, 3, 4, 5, 6, 7, 8, 9, 10, 11, 12, 13, 14, 15, 16]
    ch_strings := electron_ch_strings
    DE := [0.0100, 0.0100, 0.0100, 0.0100, 0.0200, 0.0200, 0.0200, 0.0200,
           0.0300, 0.0300, 0.0300, 0.0400, 0.0400, 0.0400, 0.0500]
    mean_E := electronMeanE }

/-- Ion/proton channel dictionary (lines 157-160); all four columns are literal
constants in the source, including the mean energies. -/
def pchannels : Catalog :=
  { bins := [2, 3, 4, 5, 6, 7, 8, 9, 10, 11, 12, 13, 14, 15, 16, 17, 18, 19,
             20, 21, 22, 23, 24, 25, 26, 27, 28, 29, 30, 31]
    ch_strings :=
      ["84.1-92.7 keV", "92.7-101.3 keV", "101.3-110.0 keV", "110.0-118.6 keV",
       "118.6-137.0 keV", "137.0-155.8 keV", "155.8-174.6 keV", "174.6-192.6 keV",
       "192.6-219.5 keV", "219.5-246.4 keV", "246.4-273.4 keV", " 273.4-312.0 keV",
       "312.0-350.7 keV", "350.7-389.5 keV", "389.5-438.1 keV", "438.1-496.4 keV",
       "496.4-554.8 keV", " 554.8-622.9 keV", "622.9-700.7 keV", "700.7-788.3 keV",
       "788.3-875.8 keV", "875.8- 982.8 keV", "982.8-1111.9 keV", "1111.9-1250.8 keV",
       "1250.8-1399.7 keV", "1399.7-1578.4 keV", "1578.4-1767.0 keV", "1767.0-1985.3 keV",
       "1985.3-2223.6 keV", "2223.6-6500.0 keV"]
    DE := [0.0086, 0.0086, 0.0087, 0.0086, 0.0184, 0.0188, 0.0188, 0.018,
           0.0269, 0.0269, 0.027, 0.0386, 0.0387, 0.0388, 0.0486, 0.0583,
           0.0584, 0.0681, 0.0778, 0.0876, 0.0875, 0.107, 0.1291, 0.1389,
           0.1489, 0.1787, 0.1886, 0.2183, 0.2383, 4.2764]
    mean_E := [MeanE.const 88.30, MeanE.const 96.90, MeanE.const 105.56,
               MeanE.const 114.22, MeanE.const 127.47, MeanE.const 146.10,
               MeanE.const 164.93, MeanE.const 183.38, MeanE.const 205.61,
               MeanE.const 232.56, MeanE.const 259.55, MeanE.const 292.06,
               MeanE.const 330.78, MeanE.const 369.59, MeanE.const 413.09,
               MeanE.const 466.34, MeanE.const 524.79, MeanE.const 587.86,
               MeanE.const 660.66, MeanE.const 743.21, MeanE.const 830.90,
               MeanE.const 927.76, MeanE.const 1045.36, MeanE.const 1179.31,
               MeanE.const 1323.16, MeanE.const 1486.37, MeanE.const 1670.04,
               MeanE.const 1872.97, MeanE.const 2101.07, MeanE.const 3801.76] }

/-- Particle species after normalization. -/
inductive Species where
  | ele
  | ion
deriving DecidableEq

/-- Model of Python str.lower() restricted to ASCII (all inputs here are ASCII). -/
def lowerStr (s : String) : String :=
  ⟨s.data.map Char.toLower⟩

/-- Species alias normalization of the loader (lines 120-123) followed by the
catalog branch (lines 163-166).  A string matching neither branch leaves the
Python variable channels_dict unbound, modelled as none. -/
def normSpecies (s : String) : Option Species :=
  let s1 := if lowerStr s = "e" then "ele" else s
  let s2 := if lowerStr s1 = "p" || lowerStr s1 = "h" || lowerStr s1 = "i" then "ion" else s1
  if s2 = "ele" then some Species.ele
  else if s2 = "ion" then some Species.ion
  else none

/-- Catalog selected for a species (lines 163-166). -/
def catalogOf : Species → Catalog
  | .ele => echannels
  | .ion => pchannels

/-- Channel catalog returned by stereo_sept_loader for a species string. -/
def septChannels (s : String) : Option Catalog :=
  (normSpecies s).map catalogOf

/-- Decimal digit character for n < 10. -/
def digitCh (n : ℕ) : Char :=
  Char.ofNat (48 + n)

/-- Decimal digits of n, most significant first; fuel-based recursion on the
first argument, and fuel n+1 always suffices. -/
def natCharsAux : ℕ → ℕ → List Char
  | 0, _ => []
  | fuel + 1, n => if n < 10 then [digitCh n] else natCharsAux fuel (n / 10) ++ [digitCh (n % 10)]

/-- Python str(n) for a natural number. -/
def natChars (n : ℕ) : List Char :=
  natCharsAux (n + 1) n

/-! ## Data-frame model -/

/-- A table cell: none models NaN/NaT, some v a finite float value. -/
abbrev Cell := Option ℚ

/-- Python exceptions that the modelled code can raise. -/
inductive PyErr where
  | warning (msg : String)
  | unboundLocal (varName : String)
  | indexError
deriving DecidableEq

/-- Possible values of the resample argument: Python None, a str, or a
non-string duration object such as a pandas Timedelta. -/
inductive ResampleArg where
  | pynone
  | str (s : String)
  | timedelta (minutes : ℚ)
deriving DecidableEq

/-- Whether the argument is a Python str (the isinstance test at line 202). -/
def ResampleArg.isStr : ResampleArg → Bool
  | .str _ => true
  | _ => false

/-- The value of a successful computation, if any. -/
def okOf : Except PyErr α → Option α
  | .ok a => some a
  | .error _ => none

/-- The exception raised by a failed computation, if any. -/
def errOf : Except PyErr α → Option PyErr
  | .ok _ => none
  | .error e => some e

/-- A pandas DataFrame with a named index: column names, index values (NaT as
none) and rows of cells.  Rows are stored positionally, matching colNames. -/
structure DF where
  indexName : String
  colNames : List String
  index : List Cell
  rows : List (List Cell)
deriving DecidableEq

/-- Look up the cell of the column named c in one row (positional zip of the
column names with the row). -/
def rowLookup : List String → List Cell → String → Cell
  | [], _, _ => none
  | _ :: _, [], _ => none
  | n :: ns, v :: vs, c => if n = c then v else rowLookup ns vs c

instance {α : Type} [DecidableEq α] : DecidableEq (Except PyErr α) := fun a b =>
  match a, b with
  | .ok x, .ok y =>
    if h : x = y then .isTrue (congrArg Except.ok h)
    else .isFalse (fun c => h (Except.ok.inj c))
  | .ok _, .error _ => .isFalse (fun c => Except.noConfusion c)
  | .error _, .ok _ => .isFalse (fun c => Except.noConfusion c)
  | .error e, .error f =>
    if h : e = f then .isTrue (congrArg Except.error h)
    else .isFalse (fun c => h (Except.error.inj c))

/-- Values of one named column. -/
def DF.getCol (df : DF) (c : String) : List Cell :=
  df.rows.map (fun r => rowLookup df.colNames r c)

/-- Mean of the present values of a list of cells, ignoring missing values;
none when no value is present (pandas mean() with skipna). -/
def meanOpt (cells : List Cell) : Cell :=
  let vs := cells.filterMap id
  if vs.length = 0 then none else some (vs.sum / vs.length)

/-! ## Record parser (pd.read_csv at lines 184 and 187) -/

/-- Split a list of characters into maximal whitespace-free words
(the sep regex of the read_csv calls). -/
def wordsAux : List Char → List Char → List (List Char)
  | [], acc => if acc.isEmpty then [] else [acc.reverse]
  | c :: rest, acc =>
    if c.isWhitespace then
      if acc.isEmpty then wordsAux rest [] else acc.reverse :: wordsAux rest []
    else wordsAux rest (c :: acc)

/-- Whitespace-separated fields of a line. -/
def fieldsOf (cs : List Char) : List (List Char) :=
  wordsAux cs []

/-- With names supplied, pandas assigns a shorter row to the leading names and
fills the missing trailing columns with NaN, and for a longer row uses the
extra leading fields as the row index, keeping the last n fields as data.
Either way no error is raised and no column-count validation happens. -/
def alignRow (n : ℕ) (cells : List Cell) : List Cell :=
  if cells.length ≤ n then cells ++ List.replicate (n - cells.length) none
  else cells.drop (cells.length - n)

/-- Model of pd.read_csv(file, header=None, sep=whitespace, names=col_names,
comment=hash): per line, text from the comment character on is dropped, blank
lines are skipped, fields are split on whitespace and parsed as floats
(a non-numeric field is modelled as a missing value). -/
def readCsvRows (n : ℕ) (content : String) : List (List Cell) :=
  (splitOnChar (Char.ofNat 10) content.data).filterMap (fun line =>
    let fs := fieldsOf (takeUntilSeq ['#'] line)
    if fs.isEmpty then none
    else some (alignRow n (fs.map parseDecChars)))

/-! ## Table assembly (lines 168-205) -/

/-- Column names for a species catalog (lines 178-181). -/
def colNamesFor (cat : Catalog) : List String :=
  ["julian_date", "year", "frac_doy", "hour", "min", "sec"]
    ++ cat.bins.map (fun i => "ch_" ++ ⟨natChars i⟩)
    ++ cat.bins.map (fun i => "err_ch_" ++ ⟨natChars i⟩)
    ++ ["integration_time"]

/-- Helper columns dropped at line 196 unless all_columns is requested. -/
def helperCols : List String :=
  ["julian_date", "year", "frac_doy", "hour", "min", "sec", "integration_time"]

/-- Julian-date conversion of line 191: pd.to_datetime(jd, origin=julian,
unit=D) places jd at (jd - 2440587.5) days after the Unix epoch; timestamps
are modelled in minutes after the epoch. -/
def julianToMinutes (jd : ℚ) : ℚ :=
  (jd - 2440587.5) * 1440

/-- Names kept after dropping the columns listed in bad. -/
def keepNames (names bad : List String) : List String :=
  names.filter (fun n => !(bad.contains n))

/-- One row after dropping the columns listed in bad. -/
def dropRow (names bad : List String) (r : List Cell) : List Cell :=
  ((names.zip r).filter (fun p => !(bad.contains p.1))).map (fun p => p.2)

/-- df.drop(columns=bad) (line 196): removes the named columns, leaving the
other columns and the index untouched. -/
def DF.dropColumns (df : DF) (bad : List String) : DF :=
  { df with colNames := keepNames df.colNames bad
            rows := df.rows.map (dropRow df.colNames bad) }

/-- A single cell after df.replace(old, np.nan). -/
def replaceCell (old : ℚ) : Cell → Cell
  | some v => if v = old then none else some v
  | none => none

/-- df.replace(old, np.nan) (line 199): every data cell equal to old becomes
missing; the index is not touched. -/
def DF.replaceVal (df : DF) (old : ℚ) : DF :=
  { df with rows := df.rows.map (fun r => r.map (replaceCell old)) }

/-! ## Resampler (lines 27-37) -/

/-- Bucket width in minutes denoted by a pandas frequency string of the simple
number+unit form; none models the ValueError pandas raises otherwise. -/
def freqUnit : List Char → Option ℚ
  | ['m', 'i', 'n'] => some 1
  | ['T'] => some 1
  | ['s'] => some (1/60)
  | ['S'] => some (1/60)
  | ['h'] => some 60
  | ['H'] => some 60
  | ['d'] => some 1440
  | ['D'] => some 1440
  | _ => none

/-- Parse a pandas frequency string: an integer count followed by a unit. -/
def parseFreq (s : String) : Option ℚ :=
  let cs := trimChars s.data
  let ds := cs.takeWhile Char.isDigit
  let us := cs.dropWhile Char.isDigit
  match freqUnit us with
  | some u => if ds.isEmpty || digitsVal ds = 0 then none else some (digitsVal ds * u)
  | none => none

/-- Index of the F-wide bucket holding time t, on the grid anchored at origin. -/
def bucketOf (origin F t : ℚ) : ℤ :=
  ⌊(t - origin) / F⌋

/-- Rows of df that carry a timestamp, paired with it. -/
def DF.timedRows (df : DF) : List (ℚ × List Cell) :=
  (df.index.zip df.rows).filterMap (fun p => p.1.map (fun t => (t, p.2)))

/-- Left edge of the first averaging window of df.resample(F): the first
timestamp floored to the F-grid anchored at the start of its day (the pandas
origin=start_day default). -/
def DF.windowStart (df : DF) (F : ℚ) : ℚ :=
  match df.timedRows with
  | [] => 0
  | p :: ps =>
    let t0 := ((p :: ps).map Prod.fst).foldl min p.1
    let origin : ℚ := 1440 * (⌊t0 / 1440⌋ : ℤ)
    origin + (bucketOf origin F t0) * F

/-- df.resample(F).mean() followed by the index shift of line 34: one output
row per F-wide bucket from the bucket of the earliest timestamp to the bucket
of the latest (empty buckets included, as pandas emits them as all-NaN rows),
each cell the mean of the present source values in that bucket, and each
output timestamp the bucket start plus F/2. -/
def DF.resampleMean (df : DF) (F : ℚ) : DF :=
  match df.timedRows with
  | [] => { df with index := [], rows := [] }
  | p :: ps =>
    let ts := ((p :: ps).map Prod.fst)
    let t0 := ts.foldl min p.1
    let t1 := ts.foldl max p.1
    let origin : ℚ := 1440 * (⌊t0 / 1440⌋ : ℤ)
    let k0 := bucketOf origin F t0
    let k1 := bucketOf origin F t1
    let nb := (k1 - k0).toNat + 1
    { indexName := df.indexName
      colNames := df.colNames
      index := (List.range nb).map (fun (j : ℕ) =>
        some (origin + ((k0 : ℚ) + (j : ℚ)) * F + F / 2))
      rows := (List.range nb).map (fun (j : ℕ) =>
        (List.range df.colNames.length).map (fun (c : ℕ) =>
          meanOpt (((p :: ps).filter (fun q => bucketOf origin F q.1 = k0 + (j : ℤ))).map
            (fun q => q.2.getD c none)))) }

/-- Model of resample_df (lines 27-37).  An unparseable frequency string makes
pandas raise ValueError, which the source catches and re-raises as a generic
Warning exception whose message names the offending value (the source text of
the message also contains quote characters, elided here). -/
def resample_df (df : DF) (resample : String) : Except PyErr DF :=
  match parseFreq resample with
  | some F => .ok (df.resampleMean F)
  | none => .error (.warning
      ("Your resample option of [" ++ resample ++
       "] does not seem to be a proper Pandas frequency!"))

/-- Rows parsed from the resolved daily files and concatenated in file order
(lines 184-188). -/
def septRows (files : List String) (cat : Catalog) : List (List Cell) :=
  (files.map (fun f => readCsvRows (colNamesFor cat).length f)).flatten

/-- Model of stereo_sept_loader (lines 89-205) downstream of file resolution:
takes the text contents of the resolved daily files in sorted order, the
species argument, the all_columns flag and the resample argument.  An
unrecognized species leaves the Python variable channels_dict unbound (line
169); an empty date range hits filelist[0] (line 184), an IndexError. -/
def stereo_sept_loader (files : List String) (species : String)
    (all_columns : Bool) (resample : ResampleArg) : Except PyErr (DF × Catalog) :=
  match normSpecies species with
  | none => .error (.unboundLocal "channels_dict")
  | some sp =>
    let cat := catalogOf sp
    let cols := colNamesFor cat
    match files with
    | [] => .error .indexError
    | _ :: _ =>
      let rows := septRows files cat
      let df0 : DF :=
        { indexName := "time"
          colNames := cols
          index := rows.map (fun r => (rowLookup cols r "julian_date").map julianToMinutes)
          rows := rows }
      let df1 := if all_columns then df0 else df0.dropColumns helperCols
      let df2 := df1.replaceVal (-9999.900)
      match resample with
      | .str s => (resample_df df2 s).map (fun d => (d, cat))
      | _ => .ok (df2, cat)

/-! ## Dates, file names, glob matching and sorting (lines 40-86 and 129-141) -/

/-- A calendar date as year and day-of-year (the two fields the file naming
scheme uses). -/
structure Date where
  year : ℕ
  doy : ℕ
deriving DecidableEq

/-- Gregorian leap-year rule (as implemented by pandas day_of_year). -/
def isLeap (y : ℕ) : Bool :=
  y % 4 = 0 && (y % 100 != 0 || y % 400 = 0)

/-- Number of days in a year. -/
def daysInYear (y : ℕ) : ℕ :=
  if isLeap y then 366 else 365

/-- The following calendar day. -/
def Date.next (d : Date) : Date :=
  if d.doy < daysInYear d.year then ⟨d.year, d.doy + 1⟩ else ⟨d.year + 1, 1⟩

/-- A well-formed date: day-of-year between 1 and the length of its year. -/
def Date.Valid (d : Date) : Prop :=
  1 ≤ d.doy ∧ d.doy ≤ daysInYear d.year

instance (d : Date) : Decidable d.Valid :=
  inferInstanceAs (Decidable (_ ∧ _))

/-- Strict calendar order on dates. -/
def calLt (a b : Date) : Prop :=
  a.year < b.year ∨ (a.year = b.year ∧ a.doy < b.doy)

instance (a b : Date) : Decidable (calLt a b) :=
  inferInstanceAs (Decidable (_ ∨ _))

instance : IsTrans Date calLt :=
  ⟨fun a b c h1 h2 => by
    unfold calLt at h1 h2 ⊢
    omega⟩

/-- Calendar order on dates. -/
def calLe (a b : Date) : Prop :=
  calLt a b ∨ a = b

instance (a b : Date) : Decidable (calLe a b) :=
  inferInstanceAs (Decidable (_ ∨ _))

/-- Model of pd.date_range(start=s, end=e, freq=D) (line 132): the calendar
days from s to e, both endpoints included; empty when s is after e.  The
recursion is fuel-based; the wrapper below supplies enough fuel for every
valid range. -/
def dateRangeAux (e : Date) : ℕ → Date → List Date
  | 0, _ => []
  | fuel + 1, s =>
    if calLt e s then []
    else if s = e then [s]
    else s :: dateRangeAux e fuel s.next

/-- Calendar days from s to e inclusive (empty when s is after e). -/
def dateRange (s e : Date) : List Date :=
  dateRangeAux e (366 * (e.year + 1) + 1) s

/-- Fixed-width decimal digits of n, most significant first (n < 10^w). -/
def padChars : ℕ → ℕ → List Char
  | 0, _ => []
  | w + 1, n => digitCh (n / 10 ^ w) :: padChars w (n % 10 ^ w)

/-- File name created by the download routine (line 77): the day-of-year is
rendered by strftime %j, which zero-pads to three digits. -/
def dlNameChars (sc sp v : List Char) (year doy : ℕ) : List Char :=
  "sept_".data ++ sc ++ "_".data ++ sp ++ "_".data ++ v ++ "_".data
    ++ natChars year ++ "_".data ++ padChars 3 doy ++ "_1min_l2_v03.dat".data

/-- Glob pattern used for the local-file lookup (line 136): the day-of-year is
interpolated with str(), without zero padding. -/
def globPatChars (sc sp v : List Char) (year doy : ℕ) : List Char :=
  "sept_".data ++ sc ++ "_".data ++ sp ++ "_".data ++ v ++ "_".data
    ++ natChars year ++ "_".data ++ natChars doy ++ "_*.dat".data

/-- Glob matching restricted to the star wildcard, the only metacharacter
occurring in the pattern of line 136.  Fuel-based recursion; the wrapper
supplies sufficient fuel. -/
def globMatchAux : ℕ → List Char → List Char → Bool
  | 0, _, _ => false
  | fuel + 1, p, s =>
    match p with
    | [] => s.isEmpty
    | c :: p2 =>
      if c = '*' then
        globMatchAux fuel p2 s ||
          (match s with
           | [] => false
           | _ :: s3 => globMatchAux fuel (c :: p2) s3)
      else
        match s with
        | [] => false
        | d :: s2 => c == d && globMatchAux fuel p2 s2

/-- Whether the glob pattern p matches the file name s. -/
def globMatch (p s : List Char) : Bool :=
  globMatchAux (p.length + s.length + 1) p s

/-- One step of the file-resolution loop (lines 134-140): existing lists the
local file names (as glob.glob would enumerate them); the first match of the
glob pattern is taken, and when there is none (IndexError) the download
routine is invoked, whose target file name is returned. -/
def resolveDay (existing : List (List Char)) (sc sp v : List Char) (d : Date) : List Char :=
  match existing.filter (fun f => globMatch (globPatChars sc sp v d.year d.doy) f) with
  | [] => dlNameChars sc sp v d.year d.doy
  | f :: _ => f

/-- Whether the local lookup found a file, so that the download is skipped. -/
def globFound (existing : List (List Char)) (sc sp v : List Char) (d : Date) : Bool :=
  !(existing.filter (fun f => globMatch (globPatChars sc sp v d.year d.doy) f)).isEmpty

/-- Strict lexicographic order on character lists, by Unicode code point:
the order np.sort (line 141) applies to the file-name strings. -/
def lexLt : List Char → List Char → Bool
  | [], [] => false
  | [], _ :: _ => true
  | _ :: _, [] => false
  | a :: as, b :: bs => if a < b then true else if a = b then lexLt as bs else false

/-- Reflexive closure of lexLt, as a relation usable with insertionSort. -/
def lexLe (a b : List Char) : Prop :=
  lexLt b a = false

instance : DecidableRel lexLe := fun _ _ =>
  inferInstanceAs (Decidable (_ = false))

/-- Base URL selection of stereo_sept_download (lines 72-75); none when the
spacecraft code matches no branch, so the Python variable base stays unbound. -/
def baseUrl (spacecraft : String) : Option String :=
  if lowerStr spacecraft = "ahead" || lowerStr spacecraft = "a" then
    some "http://www2.physik.uni-kiel.de/STEREO/data/sept/level2/ahead/1min/"
  else if lowerStr spacecraft = "behind" || lowerStr spacecraft = "b" then
    some "http://www2.physik.uni-kiel.de/STEREO/data/sept/level2/behind/1min/"
  else none

/-- Species alias normalization of stereo_sept_download (lines 67-70), which
keeps unmatched strings as they are. -/
def normSpeciesStr (s : String) : String :=
  let s1 := if lowerStr s = "e" then "ele" else s
  if lowerStr s1 = "p" || lowerStr s1 = "h" || lowerStr s1 = "i" then "ion" else s1

/-- Model of stereo_sept_download (lines 40-86): computes the request URL and
the local target file name; the network fetch itself is an external
collaborator.  For an unrecognized spacecraft code no base URL is assigned, so
the use of base at line 79 raises UnboundLocalError in Python. -/
def stereo_sept_download (date : Date) (spacecraft species viewing : String) :
    Except PyErr (String × String) :=
  let sp := normSpeciesStr species
  let file := "sept_" ++ lowerStr spacecraft ++ "_" ++ lowerStr sp ++ "_" ++ lowerStr viewing
      ++ "_" ++ (⟨natChars date.year⟩ : String) ++ "_" ++ (⟨padChars 3 date.doy⟩ : String)
      ++ "_1min_l2_v03.dat"
  match baseUrl spacecraft with
  | none => .error (.unboundLocal "base")
  | some base => .ok (base ++ (⟨natChars date.year⟩ : String) ++ "/" ++ file, file)

/-! ## Concrete data used by counterexamples and witnesses -/

/-- An electron data file of two records 7.2 minutes apart whose ch_2 fluxes
are -9999.8 and -10000.0: neither is the sentinel, but their 10-minute mean is
exactly -9999.900. -/
def sentinelMeanFile : String :=
  "2440587.5 1970 1.0 0 0 0 -9999.8 1.0 1.0 1.0 1.0 1.0 1.0 1.0 1.0 1.0 1.0 1.0 1.0 1.0 1.0 1.0 1.0 1.0 1.0 1.0 1.0 1.0 1.0 1.0 1.0 1.0 1.0 1.0 1.0 1.0 60\n2440587.505 1970 1.0 0 7 12 -10000.0 1.0 1.0 1.0 1.0 1.0 1.0 1.0 1.0 1.0 1.0 1.0 1.0 1.0 1.0 1.0 1.0 1.0 1.0 1.0 1.0 1.0 1.0 1.0 1.0 1.0 1.0 1.0 1.0 1.0 60"

/-- An electron data file whose single record has 36 fields instead of the 37
expected for the electron species (one flux field is missing): the final 99.0,
meant as the integration time, is misaligned into the last uncertainty column. -/
def shortRowFile : String :=
  "2440587.5 1970 1.0 0 0 0 2.0 2.0 2.0 2.0 2.0 2.0 2.0 2.0 2.0 2.0 2.0 2.0 2.0 2.0 2.0 3.0 3.0 3.0 3.0 3.0 3.0 3.0 3.0 3.0 3.0 3.0 3.0 3.0 3.0 99.0"

/-- A one-record file whose Julian date is exactly the Unix epoch. -/
def epochFile : String :=
  "2440587.5"

/-! ## Helper lemmas -/

theorem rowLookup_nil_row (names : List String) (c : String) :
    rowLookup names [] c = none := by
  cases names <;> rfl

theorem rowLookup_map (f : Cell → Cell) (hf : f none = none) :
    ∀ (names : List String) (r : List Cell) (c : String),
      rowLookup names (r.map f) c = f (rowLookup names r c)
  | [], r, c => by simp [rowLookup, hf]
  | _ :: _, [], c => by simp [rowLookup, hf]
  | n :: ns, v :: vs, c => by
    simp only [List.map_cons, rowLookup]
    by_cases h : n = c
    · simp [h]
    · simp [h, rowLookup_map f hf ns vs c]

theorem replaceCell_ne (old : ℚ) (x : Cell) : replaceCell old x ≠ some old := by
  cases x with
  | none => simp [replaceCell]
  | some v =>
    by_cases h : v = old
    · simp [replaceCell, h]
    · simp [replaceCell, h]

theorem getCol_replaceVal (df : DF) (old : ℚ) (c : String) :
    (df.replaceVal old).getCol c = (df.getCol c).map (replaceCell old) := by
  simp only [DF.replaceVal, DF.getCol, List.map_map]
  exact List.map_congr_left (fun r _ => rowLookup_map (replaceCell old) rfl df.colNames r c)

theorem rowLookup_dropRow (bad : List String) (c : String) (hc : bad.contains c = false) :
    ∀ (names : List String) (r : List Cell),
      rowLookup (keepNames names bad) (dropRow names bad r) c = rowLookup names r c
  | [], r => by simp [keepNames, dropRow, rowLookup]
  | n :: ns, [] => by
    simp only [dropRow, List.zip_nil_right, List.filter_nil, List.map_nil,
      rowLookup_nil_row]
  | n :: ns, v :: vs => by
    have ih := rowLookup_dropRow bad c hc ns vs
    unfold keepNames dropRow at ih ⊢
    rw [List.zip_cons_cons]
    by_cases hn : bad.contains n
    · have hnc : n ≠ c := fun e => by rw [e] at hn; rw [hn] at hc; cases hc
      have hmem : n ∈ bad := List.mem_of_elem_eq_true hn
      rw [List.filter_cons_of_neg (by simp [hmem]),
        @List.filter_cons_of_neg _ (fun p => !bad.contains p.1) (n, v) (ns.zip vs) (by simp [hmem]),
        ih]
      simp only [rowLookup, if_neg hnc]
    · have hmem : ¬ n ∈ bad := fun m => hn (List.elem_iff.2 m)
      rw [List.filter_cons_of_pos (by simp [hmem]),
        @List.filter_cons_of_pos _ (fun p => !bad.contains p.1) (n, v) (ns.zip vs) (by simp [hmem]),
        List.map_cons]
      simp only [rowLookup, ih]

theorem getCol_dropColumns (df : DF) (bad : List String) (c : String)
    (hc : bad.contains c = false) :
    (df.dropColumns bad).getCol c = df.getCol c := by
  simp only [DF.dropColumns, DF.getCol, List.map_map]
  exact List.map_congr_left (fun r _ => rowLookup_dropRow bad c hc df.colNames r)

theorem bucketOf_eq_iff (origin F t : ℚ) (k : ℤ) (hF : 0 < F) :
    bucketOf origin F t = k ↔
      origin + (k : ℚ) * F ≤ t ∧ t < origin + ((k : ℚ) + 1) * F := by
  unfold bucketOf
  rw [Int.floor_eq_iff, le_div_iff₀ hF, div_lt_iff₀ hF]
  constructor
  · rintro ⟨h1, h2⟩
    exact ⟨by linarith, by linarith⟩
  · rintro ⟨h1, h2⟩
    exact ⟨by linarith, by linarith⟩

theorem resampleMean_eq (df : DF) (F : ℚ) (hpos : 0 < F)
    (p : ℚ × List Cell) (ps : List (ℚ × List Cell)) (hpp : df.timedRows = p :: ps) :
    ∃ nb : ℕ, 0 < nb ∧
      (df.resampleMean F).indexName = df.indexName ∧
      (df.resampleMean F).colNames = df.colNames ∧
      (df.resampleMean F).index =
        (List.range nb).map (fun (j : ℕ) => some (df.windowStart F + (j : ℚ) * F + F / 2)) ∧
      (df.resampleMean F).rows =
        (List.range nb).map (fun (j : ℕ) => (List.range df.colNames.length).map (fun (c : ℕ) =>
          meanOpt ((df.timedRows.filter (fun q =>
              decide (df.windowStart F + (j : ℚ) * F ≤ q.1) &&
              decide (q.1 < df.windowStart F + ((j : ℚ) + 1) * F))).map
            (fun q => q.2.getD c none)))) := by
  have hws : df.windowStart F =
      1440 * (⌊(((p :: ps).map Prod.fst).foldl min p.1) / 1440⌋ : ℤ) +
        (bucketOf (1440 * (⌊(((p :: ps).map Prod.fst).foldl min p.1) / 1440⌋ : ℤ)) F
          (((p :: ps).map Prod.fst).foldl min p.1) : ℚ) * F := by
    simp only [DF.windowStart, hpp]
  refine ⟨(bucketOf (1440 * (⌊(((p :: ps).map Prod.fst).foldl min p.1) / 1440⌋ : ℤ)) F
      (((p :: ps).map Prod.fst).foldl max p.1) -
    bucketOf (1440 * (⌊(((p :: ps).map Prod.fst).foldl min p.1) / 1440⌋ : ℤ)) F
      (((p :: ps).map Prod.fst).foldl min p.1)).toNat + 1,
    Nat.succ_pos _, ?_, ?_, ?_, ?_⟩
  · simp only [DF.resampleMean, hpp]
  · simp only [DF.resampleMean, hpp]
  · simp only [DF.resampleMean, hpp]
    apply List.map_congr_left
    intro j _
    rw [hws]
    congr 1
    ring
  · simp only [DF.resampleMean, hpp]
    apply List.map_congr_left
    intro j _
    apply List.map_congr_left
    intro c _
    congr 1
    congr 1
    apply List.filter_congr
    intro q _
    rw [← Bool.decide_and, decide_eq_decide, bucketOf_eq_iff _ _ _ _ hpos, hws]
    constructor
    · rintro ⟨h1, h2⟩
      constructor
      · push_cast at h1 ⊢
        linarith
      · push_cast at h2 ⊢
        linarith
    · rintro ⟨h1, h2⟩
      constructor
      · push_cast at h1 ⊢
        linarith
      · push_cast at h2 ⊢
        linarith

/-! ## Claim theorems -/

/-- C1, counterexample: for the valid species argument p (normalized to ion),
the first catalog channel stores the constant mean energy 88.30 keV, which is
not the geometric mean of the bounds 84.1 and 92.7 parsed from its label
(88.30 squared is 7796.89 while 84.1 times 92.7 is 7796.07). -/
theorem sept_catalog_ion_mean_energy_not_geometric :
    normSpecies "p" = some Species.ion ∧
    ¬ isGeomMeanOf ((catalogOf Species.ion).mean_E.getD 0 (MeanE.const 0))
        ((catalogOf Species.ion).ch_strings.getD 0 "") := by
  decide

/-- C1, amended: for every valid species argument the catalog has exactly 15
channels for electrons and 30 for ions; each electron mean energy is exactly
the geometric mean of the bounds stated in its label, while each ion mean
energy is an embedded constant that equals that geometric mean only to within
0.005 keV (two-decimal rounding). -/
theorem sept_catalog_sizes_and_mean_energies (species : String) (sp : Species)
    (h : normSpecies species = some sp) :
    septChannels species = some (catalogOf sp) ∧
    (catalogOf sp).bins.length = (if sp = Species.ele then 15 else 30) ∧
    (catalogOf sp).ch_strings.length = (if sp = Species.ele then 15 else 30) ∧
    (catalogOf sp).DE.length = (if sp = Species.ele then 15 else 30) ∧
    (catalogOf sp).mean_E.length = (if sp = Species.ele then 15 else 30) ∧
    (sp = Species.ele → ∀ i : Fin 15,
      isGeomMeanOf ((catalogOf sp).mean_E.getD i (MeanE.const 0))
        ((catalogOf sp).ch_strings.getD i "")) ∧
    (sp = Species.ion → ∀ i : Fin 30,
      isGeomMeanWithin (1 / 200) ((catalogOf sp).mean_E.getD i (MeanE.const 0))
        ((catalogOf sp).ch_strings.getD i "")) := by
  refine ⟨by simp [septChannels, h], ?_⟩
  cases sp with
  | ele =>
    refine ⟨by decide, by decide, by decide, by decide, fun _ => by decide, fun e => ?_⟩
    exact absurd e (by decide)
  | ion =>
    refine ⟨by decide, by decide, by decide, by decide, fun e => ?_, fun _ => by decide⟩
    exact absurd e (by decide)

/-- C1, witness for the amended theorem at the concrete species p. -/
theorem sept_catalog_sizes_and_mean_energies_witness :
    normSpecies "p" = some Species.ion ∧
    (septChannels "p" = some (catalogOf Species.ion) ∧
    (catalogOf Species.ion).bins.length = (if Species.ion = Species.ele then 15 else 30) ∧
    (catalogOf Species.ion).ch_strings.length = (if Species.ion = Species.ele then 15 else 30) ∧
    (catalogOf Species.ion).DE.length = (if Species.ion = Species.ele then 15 else 30) ∧
    (catalogOf Species.ion).mean_E.length = (if Species.ion = Species.ele then 15 else 30) ∧
    (Species.ion = Species.ele → ∀ i : Fin 15,
      isGeomMeanOf ((catalogOf Species.ion).mean_E.getD i (MeanE.const 0))
        ((catalogOf Species.ion).ch_strings.getD i "")) ∧
    (Species.ion = Species.ion → ∀ i : Fin 30,
      isGeomMeanWithin (1 / 200) ((catalogOf Species.ion).mean_E.getD i (MeanE.const 0))
        ((catalogOf Species.ion).ch_strings.getD i ""))) :=
  ⟨by decide, sept_catalog_sizes_and_mean_energies "p" Species.ion (by decide)⟩

/-- C2, counterexample: with resampling requested, the returned table can
contain the sentinel -9999.900 in a flux column: two fluxes of -9999.8 and
-10000.0 in the same 10-minute bucket average to exactly -9999.900, which the
sentinel replacement (performed before resampling) does not touch. -/
theorem sept_loader_sentinel_reappears_after_resample :
    okOf ((stereo_sept_loader [sentinelMeanFile] "e" false (ResampleArg.str "10min")).map
      (fun p => p.1.getCol "ch_2")) = some [some (-9999.900)] := by
  decide

/-- C2, amended: when no resampling is performed (the resample argument is not
a string), no cell of any column of the returned table equals the sentinel
-9999.900: every parsed occurrence is replaced by the missing-value marker
before the table is returned. -/
theorem sept_loader_no_sentinel_without_resample
    (files : List String) (species : String) (ac : Bool) (r : ResampleArg)
    (df : DF) (cat : Catalog)
    (hr : r.isStr = false)
    (h : stereo_sept_loader files species ac r = .ok (df, cat)) :
    ∀ c : String, ∀ x ∈ df.getCol c, x ≠ some (-9999.900) := by
  intro c x hx
  unfold stereo_sept_loader at h
  rcases hn : normSpecies species with _ | sp <;> rw [hn] at h
  · cases h
  · rcases files with _ | ⟨f, fs⟩
    · cases h
    · cases r with
      | str s => simp [ResampleArg.isStr] at hr
      | pynone =>
        simp only [] at h
        cases h
        rw [getCol_replaceVal] at hx
        rcases List.mem_map.1 hx with ⟨y, _, rfl⟩
        exact replaceCell_ne _ y
      | timedelta q =>
        simp only [] at h
        cases h
        rw [getCol_replaceVal] at hx
        rcases List.mem_map.1 hx with ⟨y, _, rfl⟩
        exact replaceCell_ne _ y

/-- C2, witness for the amended theorem on a concrete one-record file. -/
theorem sept_loader_no_sentinel_without_resample_witness :
    ResampleArg.pynone.isStr = false ∧
    (stereo_sept_loader [epochFile] "e" false ResampleArg.pynone =
      .ok (⟨"time", keepNames (colNamesFor echannels) helperCols,
            [some 0], [List.replicate 30 (none : Cell)]⟩, echannels)) ∧
    ∀ c : String,
      ∀ x ∈ (DF.mk "time" (keepNames (colNamesFor echannels) helperCols)
          [some 0] [List.replicate 30 (none : Cell)]).getCol c,
        x ≠ some (-9999.900) :=
  ⟨rfl, by decide,
    sept_loader_no_sentinel_without_resample [epochFile] "e" false ResampleArg.pynone
      _ echannels rfl (by decide)⟩

/-- C3, confirmed: for a parseable frequency string F, resampling succeeds and
returns a table whose adjacent timestamps differ by exactly F, whose first
timestamp is the window start plus F/2 (center-of-window alignment), and whose
cells are the means, ignoring missing values, of the source rows falling in
each F-wide bucket. -/
theorem resample_df_bucket_means_and_centered_index
    (df : DF) (s : String) (F : ℚ) (out : DF)
    (hF : parseFreq s = some F) (hpos : 0 < F) (hne : df.timedRows ≠ [])
    (hout : resample_df df s = .ok out) :
    (∀ i, i + 1 < out.index.length →
      out.index.getD (i + 1) none = (out.index.getD i none).map (fun t => t + F)) ∧
    out.index.getD 0 none = some (df.windowStart F + F / 2) ∧
    out.rows.length = out.index.length ∧
    (∀ j c, j < out.rows.length → c < out.colNames.length →
      (out.rows.getD j []).getD c none =
        meanOpt ((df.timedRows.filter (fun q =>
            decide (df.windowStart F + (j : ℚ) * F ≤ q.1) &&
            decide (q.1 < df.windowStart F + ((j : ℚ) + 1) * F))).map
          (fun q => q.2.getD c none))) := by
  obtain ⟨p, ps, hpp⟩ : ∃ p ps, df.timedRows = p :: ps := by
    cases h : df.timedRows with
    | nil => exact absurd h hne
    | cons a l => exact ⟨a, l, rfl⟩
  have hout2 : out = df.resampleMean F := by
    unfold resample_df at hout
    rw [hF] at hout
    exact (Except.ok.inj hout).symm
  subst hout2
  obtain ⟨nb, hnb, _, hcols, hidx, hrows⟩ := resampleMean_eq df F hpos p ps hpp
  refine ⟨?_, ?_, ?_, ?_⟩
  · intro i hi
    rw [hidx] at hi ⊢
    simp only [List.length_map, List.length_range] at hi
    rw [List.getD_eq_getElem?_getD, List.getD_eq_getElem?_getD,
      List.getElem?_map, List.getElem?_map,
      List.getElem?_range hi, List.getElem?_range (Nat.lt_of_succ_lt hi)]
    simp only [Option.map_some', Option.getD_some]
    congr 1
    push_cast
    ring
  · rw [hidx, List.getD_eq_getElem?_getD, List.getElem?_map, List.getElem?_range hnb]
    simp only [Option.map_some', Option.getD_some]
    congr 1
    push_cast
    ring
  · rw [hidx, hrows]
    simp only [List.length_map]
  · intro j c hj hc
    rw [hrows] at hj ⊢
    simp only [List.length_map, List.length_range] at hj
    rw [hcols] at hc
    simp only [List.getD_eq_getElem?_getD, List.getElem?_map, List.getElem?_range hj,
      List.getElem?_range hc, Option.map_some', Option.getD_some]

/-- C3, witness: a two-row table resampled at 10min: one bucket, mean 2,
centered timestamp 5 minutes. -/
theorem resample_df_bucket_means_and_centered_index_witness :
    parseFreq "10min" = some 10 ∧ (0 : ℚ) < 10 ∧
    (DF.mk "time" ["ch_2"] [some 0, some 7.2] [[some 1], [some 3]]).timedRows ≠ [] ∧
    resample_df (DF.mk "time" ["ch_2"] [some 0, some 7.2] [[some 1], [some 3]]) "10min" =
      .ok (DF.mk "time" ["ch_2"] [some 5] [[some 2]]) ∧
    ((∀ i, i + 1 < (DF.mk "time" ["ch_2"] [some 5] [[some 2]]).index.length →
      (DF.mk "time" ["ch_2"] [some 5] [[some 2]]).index.getD (i + 1) none =
        ((DF.mk "time" ["ch_2"] [some 5] [[some 2]]).index.getD i none).map (fun t => t + 10)) ∧
    (DF.mk "time" ["ch_2"] [some 5] [[some 2]]).index.getD 0 none =
      some ((DF.mk "time" ["ch_2"] [some 0, some 7.2] [[some 1], [some 3]]).windowStart 10 + 10 / 2) ∧
    (DF.mk "time" ["ch_2"] [some 5] [[some 2]]).rows.length =
      (DF.mk "time" ["ch_2"] [some 5] [[some 2]]).index.length ∧
    (∀ j c, j < (DF.mk "time" ["ch_2"] [some 5] [[some 2]]).rows.length →
      c < (DF.mk "time" ["ch_2"] [some 5] [[some 2]]).colNames.length →
      ((DF.mk "time" ["ch_2"] [some 5] [[some 2]]).rows.getD j []).getD c none =
        meanOpt (((DF.mk "time" ["ch_2"] [some 0, some 7.2] [[some 1], [some 3]]).timedRows.filter
            (fun q =>
            decide ((DF.mk "time" ["ch_2"] [some 0, some 7.2] [[some 1], [some 3]]).windowStart 10 + (j : ℚ) * 10 ≤ q.1) &&
            decide (q.1 < (DF.mk "time" ["ch_2"] [some 0, some 7.2] [[some 1], [some 3]]).windowStart 10 + ((j : ℚ) + 1) * 10))).map
          (fun q => q.2.getD c none)))) :=
  ⟨by decide, by norm_num, by decide, by decide,
    resample_df_bucket_means_and_centered_index
      (DF.mk "time" ["ch_2"] [some 0, some 7.2] [[some 1], [some 3]]) "10min" 10
      (DF.mk "time" ["ch_2"] [some 5] [[some 2]])
      (by decide) (by norm_num) (by decide) (by decide)⟩

/-- C4, code bug: on a frequency string that does not parse as a duration,
resample_df raises a generic Warning exception whose message names the
offending value, not a dedicated InvalidFrequency error kind. -/
theorem resample_df_invalid_freq_raises_generic_warning (df : DF) (s : String)
    (h : parseFreq s = none) :
    resample_df df s = .error (.warning
      ("Your resample option of [" ++ s ++
       "] does not seem to be a proper Pandas frequency!")) := by
  simp [resample_df, h]

/-- C4, witness at the concrete unparseable frequency notafrequency. -/
theorem resample_df_invalid_freq_raises_generic_warning_witness :
    parseFreq "notafrequency" = none ∧
    resample_df ⟨"time", [], [], []⟩ "notafrequency" = .error (.warning
      ("Your resample option of [" ++ "notafrequency" ++
       "] does not seem to be a proper Pandas frequency!")) :=
  ⟨by decide,
    resample_df_invalid_freq_raises_generic_warning ⟨"time", [], [], []⟩
      "notafrequency" (by decide)⟩

/-- C6, code bug: a record with 36 fields instead of the 37 expected for the
electron species is accepted without any MalformedRecord error: the load
returns a table in which the final field 99.0 (the integration time) has been
silently misaligned into the last uncertainty column err_ch_16 and the
integration_time column is filled with a missing value. -/
theorem sept_loader_accepts_malformed_record :
    okOf ((stereo_sept_loader [shortRowFile] "e" true ResampleArg.pynone).map
      (fun p => (p.1.rows.length, p.1.getCol "err_ch_16", p.1.getCol "integration_time")))
      = some (1, [some 99], [none]) := by
  decide

/-- C7, code bug: for a spacecraft code recognized by no branch of lines
72-75, no base URL is assigned and the URL construction at line 79 raises
UnboundLocalError for the variable base, rather than a clear
UnknownSpacecraft error. -/
theorem sept_download_unknown_spacecraft_unbound_local
    (d : Date) (spacecraft species viewing : String)
    (h : baseUrl spacecraft = none) :
    stereo_sept_download d spacecraft species viewing = .error (.unboundLocal "base") := by
  simp [stereo_sept_download, h]

/-- C7, witness at the concrete unrecognized spacecraft code c. -/
theorem sept_download_unknown_spacecraft_unbound_local_witness :
    baseUrl "c" = none ∧
    stereo_sept_download ⟨2010, 100⟩ "c" "e" "sun" = .error (.unboundLocal "base") :=
  ⟨by decide,
    sept_download_unknown_spacecraft_unbound_local ⟨2010, 100⟩ "c" "e" "sun" (by decide)⟩

/-- C9, confirmed: without all_columns the loader returns exactly the per-bin
flux and uncertainty columns (the seven helper columns are dropped), the row
index is the Julian-calendar conversion of the parsed julian_date field and is
named time, and dropping columns never changes the values of the columns that
are kept. -/
theorem sept_loader_drops_helper_columns
    (files : List String) (species : String) (sp : Species) (r : ResampleArg)
    (df : DF) (cat : Catalog)
    (hs : normSpecies species = some sp) (hr : r.isStr = false)
    (h : stereo_sept_loader files species false r = .ok (df, cat)) :
    df.colNames =
      ((catalogOf sp).bins.map (fun i => "ch_" ++ (⟨natChars i⟩ : String)) ++
        (catalogOf sp).bins.map (fun i => "err_ch_" ++ (⟨natChars i⟩ : String))) ∧
    df.indexName = "time" ∧
    df.index = (septRows files (catalogOf sp)).map
      (fun rcd => (rowLookup (colNamesFor (catalogOf sp)) rcd "julian_date").map julianToMinutes) ∧
    (∀ (d : DF) (c : String), helperCols.contains c = false →
      (d.dropColumns helperCols).getCol c = d.getCol c) := by
  unfold stereo_sept_loader at h
  rw [hs] at h
  rcases files with _ | ⟨f, fs⟩
  · cases h
  · have hdf : df = ((DF.mk "time" (colNamesFor (catalogOf sp))
        ((septRows (f :: fs) (catalogOf sp)).map
          (fun rcd => (rowLookup (colNamesFor (catalogOf sp)) rcd "julian_date").map julianToMinutes))
        (septRows (f :: fs) (catalogOf sp))).dropColumns helperCols).replaceVal (-9999.900) := by
      cases r with
      | str s => simp [ResampleArg.isStr] at hr
      | pynone =>
        simp only [Bool.false_eq_true, if_false] at h
        exact (Prod.ext_iff.1 (Except.ok.inj h)).1.symm
      | timedelta q =>
        simp only [Bool.false_eq_true, if_false] at h
        exact (Prod.ext_iff.1 (Except.ok.inj h)).1.symm
    refine ⟨?_, ?_, ?_, fun d c hc => getCol_dropColumns d helperCols c hc⟩
    · rw [hdf]
      show keepNames (colNamesFor (catalogOf sp)) helperCols = _
      cases sp <;> decide
    · rw [hdf]; rfl
    · rw [hdf]; rfl

/-- C9, witness on a concrete one-record electron file. -/
theorem sept_loader_drops_helper_columns_witness :
    normSpecies "e" = some Species.ele ∧
    ResampleArg.pynone.isStr = false ∧
    stereo_sept_loader [epochFile] "e" false ResampleArg.pynone =
      .ok (⟨"time", keepNames (colNamesFor echannels) helperCols,
            [some 0], [List.replicate 30 (none : Cell)]⟩, echannels) ∧
    ((DF.mk "time" (keepNames (colNamesFor echannels) helperCols)
        [some 0] [List.replicate 30 (none : Cell)]).colNames =
      ((catalogOf Species.ele).bins.map (fun i => "ch_" ++ (⟨natChars i⟩ : String)) ++
        (catalogOf Species.ele).bins.map (fun i => "err_ch_" ++ (⟨natChars i⟩ : String))) ∧
    (DF.mk "time" (keepNames (colNamesFor echannels) helperCols)
        [some 0] [List.replicate 30 (none : Cell)]).indexName = "time" ∧
    (DF.mk "time" (keepNames (colNamesFor echannels) helperCols)
        [some 0] [List.replicate 30 (none : Cell)]).index =
      (septRows [epochFile] (catalogOf Species.ele)).map
        (fun rcd => (rowLookup (colNamesFor (catalogOf Species.ele)) rcd "julian_date").map julianToMinutes) ∧
    (∀ (d : DF) (c : String), helperCols.contains c = false →
      (d.dropColumns helperCols).getCol c = d.getCol c)) :=
  ⟨by decide, rfl, by decide,
    sept_loader_drops_helper_columns [epochFile] "e" Species.ele ResampleArg.pynone
      _ echannels (by decide) rfl (by decide)⟩

/-- C10, confirmed: whenever the resample argument is not a string (Python
None, a pandas Timedelta, or any other non-str value), the loader silently
skips resampling and returns exactly what it returns for resample=None;
resampling is invoked only for str arguments. -/
theorem sept_loader_skips_resample_for_non_string
    (files : List String) (species : String) (ac : Bool) (r : ResampleArg)
    (hr : r.isStr = false) :
    stereo_sept_loader files species ac r =
      stereo_sept_loader files species ac ResampleArg.pynone := by
  cases r with
  | str s => simp [ResampleArg.isStr] at hr
  | pynone => rfl
  | timedelta q =>
    unfold stereo_sept_loader
    cases normSpecies species with
    | none => rfl
    | some sp => cases files <;> rfl

/-- C10, witness at a concrete Timedelta argument. -/
theorem sept_loader_skips_resample_for_non_string_witness :
    (ResampleArg.timedelta 10).isStr = false ∧
    stereo_sept_loader [epochFile] "e" false (ResampleArg.timedelta 10) =
      stereo_sept_loader [epochFile] "e" false ResampleArg.pynone :=
  ⟨rfl,
    sept_loader_skips_resample_for_non_string [epochFile] "e" false
      (ResampleArg.timedelta 10) rfl⟩

/-! ## Glob matching lemmas -/

theorem globMatchAux_fuel : ∀ (n f1 f2 : ℕ) (p s : List Char),
    p.length + s.length ≤ n → p.length + s.length < f1 → p.length + s.length < f2 →
    globMatchAux f1 p s = globMatchAux f2 p s := by
  intro n
  induction n with
  | zero =>
    intro f1 f2 p s hn h1 h2
    obtain rfl : p = [] := List.eq_nil_of_length_eq_zero (by omega)
    obtain rfl : s = [] := List.eq_nil_of_length_eq_zero (by omega)
    obtain ⟨g1, rfl⟩ : ∃ g, f1 = g + 1 := ⟨f1 - 1, by omega⟩
    obtain ⟨g2, rfl⟩ : ∃ g, f2 = g + 1 := ⟨f2 - 1, by omega⟩
    rfl
  | succ n ih =>
    intro f1 f2 p s hn h1 h2
    obtain ⟨g1, rfl⟩ : ∃ g, f1 = g + 1 := ⟨f1 - 1, by omega⟩
    obtain ⟨g2, rfl⟩ : ∃ g, f2 = g + 1 := ⟨f2 - 1, by omega⟩
    cases p with
    | nil => rfl
    | cons c p2 =>
      simp only [globMatchAux]
      simp only [List.length_cons] at hn h1 h2
      by_cases hc : c = '*'
      · rw [if_pos hc, if_pos hc]
        cases s with
        | nil =>
          rw [ih g1 g2 p2 [] (by simp; omega) (by simp; omega) (by simp; omega)]
        | cons d s3 =>
          simp only [List.length_cons] at hn h1 h2
          show (globMatchAux g1 p2 (d :: s3) || globMatchAux g1 (c :: p2) s3) =
            (globMatchAux g2 p2 (d :: s3) || globMatchAux g2 (c :: p2) s3)
          rw [ih g1 g2 p2 (d :: s3) (by simp; omega) (by simp; omega) (by simp; omega),
            ih g1 g2 (c :: p2) s3 (by simp; omega) (by simp; omega) (by simp; omega)]
      · rw [if_neg hc, if_neg hc]
        cases s with
        | nil => rfl
        | cons d s2 =>
          simp only [List.length_cons] at hn h1 h2
          show (c == d && globMatchAux g1 p2 s2) = (c == d && globMatchAux g2 p2 s2)
          rw [ih g1 g2 p2 s2 (by omega) (by omega) (by omega)]

theorem globMatchAux_eq_globMatch (f : ℕ) (p s : List Char)
    (h : p.length + s.length < f) : globMatchAux f p s = globMatch p s :=
  globMatchAux_fuel (p.length + s.length) f (p.length + s.length + 1) p s
    le_rfl h (by omega)

theorem globMatch_cons_cons (c : Char) (p : List Char) (d : Char) (s : List Char)
    (hc : c ≠ '*') :
    globMatch (c :: p) (d :: s) = (c == d && globMatch p s) := by
  show globMatchAux ((c :: p).length + (d :: s).length + 1) (c :: p) (d :: s) = _
  simp only [List.length_cons]
  rw [globMatchAux, if_neg hc]
  show (c == d && globMatchAux (p.length + 1 + (s.length + 1)) p s) = _
  rw [globMatchAux_eq_globMatch _ _ _ (by omega)]

theorem globMatch_append_same : ∀ (pre q r : List Char),
    (∀ c ∈ pre, c ≠ '*') → globMatch (pre ++ q) (pre ++ r) = globMatch q r
  | [], q, r, _ => rfl
  | c :: cs, q, r, h => by
    rw [List.cons_append, List.cons_append,
      globMatch_cons_cons c (cs ++ q) c (cs ++ r) (h c (List.mem_cons_self c cs)),
      globMatch_append_same cs q r (fun x hx => h x (List.mem_cons_of_mem c hx))]
    simp

theorem globMatch_cons_cons_ne (c : Char) (p : List Char) (d : Char) (s : List Char)
    (hc : c ≠ '*') (hne : c ≠ d) :
    globMatch (c :: p) (d :: s) = false := by
  rw [globMatch_cons_cons c p d s hc]
  simp [hne]

/-! ## Digit-string lemmas -/

theorem digitCh_not_star (k : ℕ) (hk : k < 10) : digitCh k ≠ '*' := by
  interval_cases k <;> decide

theorem natCharsAux_fuel : ∀ (n : ℕ), ∀ (f1 f2 : ℕ), n < f1 → n < f2 →
    natCharsAux f1 n = natCharsAux f2 n := by
  intro n
  induction n using Nat.strong_induction_on with
  | _ n ih =>
    intro f1 f2 h1 h2
    obtain ⟨g1, rfl⟩ : ∃ g, f1 = g + 1 := ⟨f1 - 1, by omega⟩
    obtain ⟨g2, rfl⟩ : ∃ g, f2 = g + 1 := ⟨f2 - 1, by omega⟩
    simp only [natCharsAux]
    by_cases hn : n < 10
    · simp [hn]
    · rw [if_neg hn, if_neg hn, ih (n / 10) (by omega) g1 g2 (by omega) (by omega)]

theorem natChars_lt10 (n : ℕ) (h : n < 10) : natChars n = [digitCh n] := by
  simp [natChars, natCharsAux, h]

theorem natChars_ge10 (n : ℕ) (h : 10 ≤ n) :
    natChars n = natChars (n / 10) ++ [digitCh (n % 10)] := by
  show natCharsAux (n + 1) n = _
  rw [natCharsAux, if_neg (by omega),
    natCharsAux_fuel (n / 10) n (n / 10 + 1) (by omega) (by omega)]
  rfl

theorem natChars_all_digits : ∀ (n : ℕ), ∀ c ∈ natChars n, ∃ k, k < 10 ∧ c = digitCh k := by
  intro n
  induction n using Nat.strong_induction_on with
  | _ n ih =>
    intro c hc
    by_cases hn : n < 10
    · rw [natChars_lt10 n hn] at hc
      simp at hc
      exact ⟨n, hn, hc⟩
    · rw [natChars_ge10 n (by omega)] at hc
      rcases List.mem_append.1 hc with h | h
      · exact ih (n / 10) (by omega) c h
      · simp at h
        exact ⟨n % 10, by omega, h⟩

theorem padChars_all_digits : ∀ (w n : ℕ), n < 10 ^ w →
    ∀ c ∈ padChars w n, ∃ k, k < 10 ∧ c = digitCh k
  | 0, n, _, c, hc => by simp [padChars] at hc
  | w + 1, n, hn, c, hc => by
    simp only [padChars, List.mem_cons] at hc
    rcases hc with rfl | hc
    · refine ⟨n / 10 ^ w, ?_, rfl⟩
      have hp : 0 < 10 ^ w := Nat.pos_pow_of_pos w (by omega)
      rw [Nat.div_lt_iff_lt_mul hp]
      calc n < 10 ^ (w + 1) := hn
        _ = 10 * 10 ^ w := by ring
    · exact padChars_all_digits w (n % 10 ^ w) (Nat.mod_lt n (Nat.pos_pow_of_pos w (by omega))) c hc

theorem padChars_three (n : ℕ) :
    padChars 3 n = [digitCh (n / 100), digitCh (n % 100 / 10), digitCh (n % 100 % 10)] := by
  simp only [padChars]
  norm_num

theorem padChars_four (n : ℕ) :
    padChars 4 n = [digitCh (n / 1000), digitCh (n % 1000 / 100),
      digitCh (n % 1000 % 100 / 10), digitCh (n % 1000 % 100 % 10)] := by
  simp only [padChars]
  norm_num

theorem natChars_eq_pad3 (n : ℕ) (h1 : 100 ≤ n) (h2 : n < 1000) :
    natChars n = padChars 3 n := by
  rw [natChars_ge10 n (by omega), natChars_ge10 (n / 10) (by omega),
    natChars_lt10 (n / 10 / 10) (by omega), padChars_three]
  have e1 : n / 10 / 10 = n / 100 := by omega
  have e2 : n / 10 % 10 = n % 100 / 10 := by omega
  have e3 : n % 10 = n % 100 % 10 := by omega
  rw [e1, e2, e3]
  simp

theorem natChars_eq_pad4 (n : ℕ) (h1 : 1000 ≤ n) (h2 : n < 10000) :
    natChars n = padChars 4 n := by
  rw [natChars_ge10 n (by omega), natChars_ge10 (n / 10) (by omega),
    natChars_ge10 (n / 10 / 10) (by omega), natChars_lt10 (n / 10 / 10 / 10) (by omega),
    padChars_four]
  have e1 : n / 10 / 10 / 10 = n / 1000 := by omega
  have e2 : n / 10 / 10 % 10 = n % 1000 / 100 := by omega
  have e3 : n / 10 % 10 = n % 1000 % 100 / 10 := by omega
  have e4 : n % 10 = n % 1000 % 100 % 10 := by omega
  rw [e1, e2, e3, e4]
  simp

theorem natChars_not_star (n : ℕ) : ∀ c ∈ natChars n, c ≠ '*' := by
  intro c hc
  obtain ⟨k, hk, rfl⟩ := natChars_all_digits n c hc
  exact digitCh_not_star k hk

theorem padChars_not_star (w n : ℕ) (h : n < 10 ^ w) : ∀ c ∈ padChars w n, c ≠ '*' := by
  intro c hc
  obtain ⟨k, hk, rfl⟩ := padChars_all_digits w n h c hc
  exact digitCh_not_star k hk

theorem digitCh_eq_iff : ∀ i, i < 10 → ∀ j, j < 10 → (digitCh i = digitCh j ↔ i = j) := by
  decide

theorem daysInYear_le (y : ℕ) : daysInYear y ≤ 366 := by
  unfold daysInYear
  split <;> omega

theorem daysInYear_ge (y : ℕ) : 365 ≤ daysInYear y := by
  unfold daysInYear
  split <;> omega

theorem globPat_matches_dlName_of_ge100 (sc sp v : List Char) (year doy : ℕ)
    (hsc : ∀ c ∈ sc, c ≠ '*') (hsp : ∀ c ∈ sp, c ≠ '*') (hv : ∀ c ∈ v, c ≠ '*')
    (h : 100 ≤ doy) (hdoy2 : doy < 1000) :
    globMatch (globPatChars sc sp v year doy) (dlNameChars sc sp v year doy) = true := by
  unfold globPatChars dlNameChars
  simp only [List.append_assoc]
  rw [globMatch_append_same _ _ _ (by decide),
    globMatch_append_same sc _ _ hsc,
    globMatch_append_same _ _ _ (by decide),
    globMatch_append_same sp _ _ hsp,
    globMatch_append_same _ _ _ (by decide),
    globMatch_append_same v _ _ hv,
    globMatch_append_same _ _ _ (by decide),
    globMatch_append_same (natChars year) _ _ (natChars_not_star year),
    globMatch_append_same _ _ _ (by decide),
    natChars_eq_pad3 doy h hdoy2,
    globMatch_append_same (padChars 3 doy) _ _
      (padChars_not_star 3 doy (by norm_num; omega))]
  decide

theorem globPat_misses_dlName_of_lt100 (sc sp v : List Char) (year doy : ℕ)
    (hsc : ∀ c ∈ sc, c ≠ '*') (hsp : ∀ c ∈ sp, c ≠ '*') (hv : ∀ c ∈ v, c ≠ '*')
    (h1 : 1 ≤ doy) (h : doy < 100) :
    globMatch (globPatChars sc sp v year doy) (dlNameChars sc sp v year doy) = false := by
  unfold globPatChars dlNameChars
  simp only [List.append_assoc]
  rw [globMatch_append_same _ _ _ (by decide),
    globMatch_append_same sc _ _ hsc,
    globMatch_append_same _ _ _ (by decide),
    globMatch_append_same sp _ _ hsp,
    globMatch_append_same _ _ _ (by decide),
    globMatch_append_same v _ _ hv,
    globMatch_append_same _ _ _ (by decide),
    globMatch_append_same (natChars year) _ _ (natChars_not_star year),
    globMatch_append_same _ _ _ (by decide),
    padChars_three]
  have hd100 : doy / 100 = 0 := by omega
  rw [hd100]
  by_cases h10 : doy < 10
  · rw [natChars_lt10 doy h10]
    simp only [List.singleton_append, List.cons_append]
    exact globMatch_cons_cons_ne _ _ _ _ (digitCh_not_star doy (by omega))
      (fun e => by rw [digitCh_eq_iff doy (by omega) 0 (by omega)] at e; omega)
  · rw [natChars_ge10 doy (by omega), natChars_lt10 (doy / 10) (by omega)]
    simp only [List.singleton_append, List.cons_append, List.append_assoc]
    exact globMatch_cons_cons_ne _ _ _ _ (digitCh_not_star (doy / 10) (by omega))
      (fun e => by rw [digitCh_eq_iff (doy / 10) (by omega) 0 (by omega)] at e; omega)

/-- C8, counterexample: after a first call has downloaded the file for
2010-02-11 (day-of-year 42, file name paddded to 042 by strftime), the second
call does not find it locally: the glob pattern interpolates the day-of-year
unpadded as 42, which does not match, so the claim that the second call finds
a local file for each day and skips every re-download is false. -/
theorem sept_second_call_glob_misses_day42 :
    globFound [dlNameChars "ahead".data "ele".data "sun".data 2010 42]
      "ahead".data "ele".data "sun".data ⟨2010, 42⟩ = false := by
  decide

/-- C8, amended: for any star-free spacecraft, species and viewing strings and
any valid date, the second call resolves the same file name as the first call
(so the returned Time Series Table is equal), but it finds the previously
downloaded file via the glob pattern, skipping the download call, only for
days with day-of-year at least 100; for day-of-year below 100 the unpadded
glob pattern misses the zero-padded file and the download routine is invoked
again. -/
theorem sept_second_call_resolution
    (sc sp v : List Char) (d : Date)
    (hsc : ∀ c ∈ sc, c ≠ '*') (hsp : ∀ c ∈ sp, c ≠ '*') (hv : ∀ c ∈ v, c ≠ '*')
    (hval : d.Valid) :
    (100 ≤ d.doy → globFound [dlNameChars sc sp v d.year d.doy] sc sp v d = true) ∧
    (d.doy < 100 → globFound [dlNameChars sc sp v d.year d.doy] sc sp v d = false) ∧
    resolveDay [dlNameChars sc sp v d.year d.doy] sc sp v d = resolveDay [] sc sp v d := by
  have hdoy2 : d.doy < 1000 := by
    have := daysInYear_le d.year
    rcases hval with ⟨hd1, hd2⟩
    omega
  have hdoy1 : 1 ≤ d.doy := hval.1
  by_cases h : 100 ≤ d.doy
  · have hm := globPat_matches_dlName_of_ge100 sc sp v d.year d.doy hsc hsp hv h hdoy2
    refine ⟨fun _ => ?_, fun hlt => absurd h (by omega), ?_⟩
    · simp [globFound, List.filter, hm]
    · simp [resolveDay, List.filter, hm]
  · have hm := globPat_misses_dlName_of_lt100 sc sp v d.year d.doy hsc hsp hv hdoy1 (by omega)
    refine ⟨fun hge => absurd hge h, fun _ => ?_, ?_⟩
    · simp [globFound, List.filter, hm]
    · simp [resolveDay, List.filter, hm]

/-- C8, witness for the amended theorem at spacecraft ahead, species ele,
viewing sun and the valid date 2010 day 42. -/
theorem sept_second_call_resolution_witness :
    (∀ c ∈ "ahead".data, c ≠ '*') ∧ (∀ c ∈ "ele".data, c ≠ '*') ∧
    (∀ c ∈ "sun".data, c ≠ '*') ∧ (Date.mk 2010 42).Valid ∧
    ((100 ≤ (Date.mk 2010 42).doy →
      globFound [dlNameChars "ahead".data "ele".data "sun".data (Date.mk 2010 42).year (Date.mk 2010 42).doy]
        "ahead".data "ele".data "sun".data ⟨2010, 42⟩ = true) ∧
    ((Date.mk 2010 42).doy < 100 →
      globFound [dlNameChars "ahead".data "ele".data "sun".data (Date.mk 2010 42).year (Date.mk 2010 42).doy]
        "ahead".data "ele".data "sun".data ⟨2010, 42⟩ = false) ∧
    resolveDay [dlNameChars "ahead".data "ele".data "sun".data (Date.mk 2010 42).year (Date.mk 2010 42).doy]
        "ahead".data "ele".data "sun".data ⟨2010, 42⟩ =
      resolveDay [] "ahead".data "ele".data "sun".data ⟨2010, 42⟩) :=
  ⟨by decide, by decide, by decide, by decide,
    sept_second_call_resolution "ahead".data "ele".data "sun".data ⟨2010, 42⟩
      (by decide) (by decide) (by decide) (by decide)⟩

/-! ## Calendar lemmas -/

theorem date_ext (a b : Date) (h1 : a.year = b.year) (h2 : a.doy = b.doy) : a = b := by
  cases a
  cases b
  simp_all

theorem calLe_iff (a b : Date) :
    calLe a b ↔ (a.year < b.year ∨ (a.year = b.year ∧ a.doy ≤ b.doy)) := by
  unfold calLe calLt
  constructor
  · rintro (h | rfl)
    · rcases h with h | ⟨h1, h2⟩
      · exact Or.inl h
      · exact Or.inr ⟨h1, le_of_lt h2⟩
    · exact Or.inr ⟨rfl, le_rfl⟩
  · rintro (h | ⟨h1, h2⟩)
    · exact Or.inl (Or.inl h)
    · rcases Nat.lt_or_ge a.doy b.doy with h3 | h3
      · exact Or.inl (Or.inr ⟨h1, h3⟩)
      · exact Or.inr (date_ext a b h1 (by omega))

theorem not_calLt_of_calLe (s e : Date) (h : calLe s e) : ¬ calLt e s := by
  rw [calLe_iff] at h
  unfold calLt
  omega

theorem calLe_trans (a b c : Date) (h1 : calLe a b) (h2 : calLe b c) : calLe a c := by
  rw [calLe_iff] at h1 h2 ⊢
  omega

theorem year_le_of_calLe (a b : Date) (h : calLe a b) : a.year ≤ b.year := by
  rw [calLe_iff] at h
  omega

theorem valid_next (d : Date) (h : d.Valid) : d.next.Valid := by
  rcases h with ⟨h1, h2⟩
  unfold Date.next
  by_cases hd : d.doy < daysInYear d.year
  · rw [if_pos hd]
    refine ⟨?_, ?_⟩ <;> dsimp only <;> omega
  · rw [if_neg hd]
    refine ⟨le_refl 1, ?_⟩
    have := daysInYear_ge (d.year + 1)
    show 1 ≤ daysInYear (d.year + 1)
    omega

theorem calLt_next (d : Date) (_ : d.Valid) : calLt d d.next := by
  unfold calLt Date.next
  by_cases hd : d.doy < daysInYear d.year
  · rw [if_pos hd]
    right
    refine ⟨rfl, ?_⟩
    dsimp only
    omega
  · rw [if_neg hd]
    left
    show d.year < d.year + 1
    omega

theorem next_calLe_of_calLt (s e : Date) (hs : s.Valid) (he : e.Valid) (h : calLt s e) :
    calLe s.next e := by
  rw [calLe_iff]
  unfold Date.next
  rcases h with h | ⟨h1, h2⟩
  · by_cases hd : s.doy < daysInYear s.year
    · rw [if_pos hd]
      left
      dsimp only
      exact h
    · rw [if_neg hd]
      show s.year + 1 < e.year ∨ (s.year + 1 = e.year ∧ 1 ≤ e.doy)
      rcases he with ⟨he1, he2⟩
      omega
  · by_cases hd : s.doy < daysInYear s.year
    · rw [if_pos hd]
      right
      refine ⟨h1, ?_⟩
      dsimp only
      omega
    · exfalso
      rcases hs with ⟨hs1, hs2⟩
      rcases he with ⟨he1, he2⟩
      rw [h1] at hs2 hd
      omega

theorem calIdx_le (a b : Date) (ha : a.Valid) (hb : b.Valid) (h : calLe a b) :
    366 * a.year + a.doy ≤ 366 * b.year + b.doy := by
  rw [calLe_iff] at h
  rcases ha with ⟨ha1, ha2⟩
  rcases hb with ⟨hb1, hb2⟩
  have h366a := daysInYear_le a.year
  have h366b := daysInYear_le b.year
  omega

theorem calIdx_next (d : Date) (h : d.Valid) :
    366 * d.year + d.doy < 366 * d.next.year + d.next.doy := by
  unfold Date.next
  by_cases hd : d.doy < daysInYear d.year
  · rw [if_pos hd]
    show _ < 366 * d.year + (d.doy + 1)
    omega
  · rw [if_neg hd]
    show _ < 366 * (d.year + 1) + 1
    have := daysInYear_le d.year
    rcases h with ⟨h1, h2⟩
    omega

theorem dateRangeAux_spec (e : Date) (he : e.Valid) :
    ∀ (fuel : ℕ) (s : Date), s.Valid → calLe s e →
      366 * e.year + e.doy - (366 * s.year + s.doy) < fuel →
      (dateRangeAux e fuel s).head? = some s ∧
      (dateRangeAux e fuel s).getLast? = some e ∧
      List.Chain' (fun a b => b = a.next) (dateRangeAux e fuel s) ∧
      ∀ d ∈ dateRangeAux e fuel s, d.Valid ∧ calLe s d ∧ calLe d e := by
  intro fuel
  induction fuel with
  | zero =>
    intro s hs hse hf
    exact absurd hf (by omega)
  | succ n ih =>
    intro s hs hse hf
    simp only [dateRangeAux]
    rw [if_neg (not_calLt_of_calLe s e hse)]
    by_cases hse2 : s = e
    · rw [if_pos hse2]
      refine ⟨rfl, by rw [List.getLast?_singleton, hse2], List.chain'_singleton s, ?_⟩
      intro d hd
      rcases List.mem_singleton.1 hd with rfl
      exact ⟨hs, Or.inr rfl, hse⟩
    · rw [if_neg hse2]
      have hlt : calLt s e := by
        rcases hse with h | h
        · exact h
        · exact absurd h hse2
      have hnv := valid_next s hs
      have hnle := next_calLe_of_calLt s e hs he hlt
      have hstep := calIdx_next s hs
      have hbound := calIdx_le s.next e hnv he hnle
      obtain ⟨ih1, ih2, ih3, ih4⟩ := ih s.next hnv hnle (by omega)
      cases hL : dateRangeAux e n s.next with
      | nil =>
        rw [hL] at ih1
        simp at ih1
      | cons x xs =>
        rw [hL] at ih1 ih2 ih3 ih4
        have hx : x = s.next := by simpa using ih1
        refine ⟨rfl, ?_, ?_, ?_⟩
        · rw [List.getLast?_cons_cons]
          exact ih2
        · rw [List.chain'_cons]
          exact ⟨hx, ih3⟩
        · intro d hd
          rcases List.mem_cons.1 hd with rfl | hd2
          · exact ⟨hs, Or.inr rfl, hse⟩
          · obtain ⟨hdv, hd1, hd2e⟩ := ih4 d hd2
            exact ⟨hdv, calLe_trans s s.next d (Or.inl (calLt_next s hs)) hd1, hd2e⟩

theorem dateRange_spec (s e : Date) (hs : s.Valid) (he : e.Valid) (hse : calLe s e) :
    (dateRange s e).head? = some s ∧ (dateRange s e).getLast? = some e ∧
    List.Chain' (fun a b => b = a.next) (dateRange s e) ∧
    ∀ d ∈ dateRange s e, d.Valid ∧ calLe s d ∧ calLe d e := by
  apply dateRangeAux_spec e he _ s hs hse
  have h1 := calIdx_le s e hs he hse
  have h2 := daysInYear_le e.year
  rcases he with ⟨he1, he2⟩
  omega

theorem chain_next_calLt : ∀ (l : List Date), (∀ d ∈ l, d.Valid) →
    List.Chain' (fun a b => b = a.next) l → List.Chain' calLt l
  | [], _, _ => List.chain'_nil
  | [_], _, _ => List.chain'_singleton _
  | a :: b :: t, hv, hc => by
    rw [List.chain'_cons] at hc ⊢
    refine ⟨?_, chain_next_calLt (b :: t)
      (fun d hd => hv d (List.mem_cons_of_mem _ hd)) hc.2⟩
    rw [hc.1]
    exact calLt_next a (hv a (List.mem_cons_self _ _))

theorem dateRange_pairwise_calLt (s e : Date) (hs : s.Valid) (he : e.Valid)
    (hse : calLe s e) : (dateRange s e).Pairwise calLt := by
  obtain ⟨_, _, h3, h4⟩ := dateRange_spec s e hs he hse
  rw [← List.chain'_iff_pairwise]
  exact chain_next_calLt (dateRange s e) (fun d hd => (h4 d hd).1) h3

/-! ## Lexicographic order lemmas -/

theorem lexLt_append_same : ∀ (p x y : List Char), lexLt (p ++ x) (p ++ y) = lexLt x y
  | [], _, _ => rfl
  | c :: cs, x, y => by
    simp only [List.cons_append, lexLt, if_neg (lt_irrefl c), if_pos rfl]
    exact lexLt_append_same cs x y

theorem lexLt_asymm : ∀ (x y : List Char), lexLt x y = true → lexLt y x = false
  | [], [], h => by simp [lexLt] at h
  | [], _ :: _, _ => by simp [lexLt]
  | _ :: _, [], h => by simp [lexLt] at h
  | a :: as, b :: bs, h => by
    simp only [lexLt] at h ⊢
    by_cases hab : a < b
    · rw [if_neg (asymm hab), if_neg (ne_of_gt hab)]
    · by_cases heq : a = b
      · subst heq
        rw [if_neg (lt_irrefl a), if_pos rfl]
        rw [if_neg hab, if_pos rfl] at h
        exact lexLt_asymm as bs h
      · rw [if_neg hab, if_neg heq] at h
        cases h

theorem digitCh_lt_iff : ∀ i, i < 10 → ∀ j, j < 10 → (digitCh i < digitCh j ↔ i < j) := by
  decide

theorem padChars_lexLt : ∀ (w a b : ℕ) (x y : List Char), a < 10 ^ w → b < 10 ^ w → a < b →
    lexLt (padChars w a ++ x) (padChars w b ++ y) = true
  | 0, a, b, x, y, ha, hb, hab => by
    simp at ha hb
    omega
  | w + 1, a, b, x, y, ha, hb, hab => by
    simp only [padChars, List.cons_append]
    have hpow : (0 : ℕ) < 10 ^ w := Nat.pos_pow_of_pos w (by omega)
    have hda : a / 10 ^ w < 10 := by
      rw [Nat.div_lt_iff_lt_mul hpow]
      calc a < 10 ^ (w + 1) := ha
        _ = 10 * 10 ^ w := by ring
    have hdb : b / 10 ^ w < 10 := by
      rw [Nat.div_lt_iff_lt_mul hpow]
      calc b < 10 ^ (w + 1) := hb
        _ = 10 * 10 ^ w := by ring
    rcases Nat.lt_or_ge (a / 10 ^ w) (b / 10 ^ w) with hlt | hge
    · simp only [lexLt]
      rw [if_pos ((digitCh_lt_iff _ hda _ hdb).2 hlt)]
    · have heq : a / 10 ^ w = b / 10 ^ w :=
        le_antisymm (Nat.div_le_div_right (le_of_lt hab)) hge
      simp only [lexLt, heq, lt_self_iff_false, if_false, eq_self_iff_true, if_true]
      apply padChars_lexLt w _ _ x y (Nat.mod_lt _ hpow) (Nat.mod_lt _ hpow)
      have e1 := Nat.div_add_mod a (10 ^ w)
      have e2 := Nat.div_add_mod b (10 ^ w)
      have hsum : 10 ^ w * (a / 10 ^ w) + a % 10 ^ w <
          10 ^ w * (b / 10 ^ w) + b % 10 ^ w := by
        rw [e1, e2]
        exact hab
      rw [heq] at hsum
      exact Nat.lt_of_add_lt_add_left hsum

theorem dlName_lexLt (sc sp v : List Char) (a b : Date)
    (ha : a.Valid) (hb : b.Valid)
    (hya1 : 1000 ≤ a.year) (hya2 : a.year ≤ 9999)
    (hyb1 : 1000 ≤ b.year) (hyb2 : b.year ≤ 9999)
    (h : calLt a b) :
    lexLt (dlNameChars sc sp v a.year a.doy) (dlNameChars sc sp v b.year b.doy) = true := by
  unfold dlNameChars
  simp only [List.append_assoc]
  rw [lexLt_append_same, lexLt_append_same, lexLt_append_same, lexLt_append_same,
    lexLt_append_same, lexLt_append_same, lexLt_append_same,
    natChars_eq_pad4 a.year hya1 (by omega), natChars_eq_pad4 b.year hyb1 (by omega)]
  have h366a := daysInYear_le a.year
  have h366b := daysInYear_le b.year
  rcases ha with ⟨ha1, ha2⟩
  rcases hb with ⟨hb1, hb2⟩
  rcases h with h | ⟨h1, h2⟩
  · exact padChars_lexLt 4 a.year b.year _ _ (by norm_num; omega) (by norm_num; omega) h
  · rw [h1, lexLt_append_same, lexLt_append_same]
    exact padChars_lexLt 3 a.doy b.doy _ _ (by norm_num; omega) (by norm_num; omega) h2

theorem sept_filelist_sorted (sc sp v : List Char) (s e : Date)
    (hs : s.Valid) (he : e.Valid) (hse : calLe s e)
    (hy1 : 1000 ≤ s.year) (hy2 : e.year ≤ 9999) :
    List.Sorted lexLe
      ((dateRange s e).map (fun d => dlNameChars sc sp v d.year d.doy)) := by
  have hspec := dateRange_spec s e hs he hse
  rw [List.Sorted, List.pairwise_map]
  apply List.Pairwise.imp_of_mem _ (dateRange_pairwise_calLt s e hs he hse)
  intro a b hma hmb hab
  obtain ⟨hav, hsa, hae⟩ := hspec.2.2.2 a hma
  obtain ⟨hbv, hsb, hbe⟩ := hspec.2.2.2 b hmb
  have hya1 : 1000 ≤ a.year := le_trans hy1 (year_le_of_calLe s a hsa)
  have hya2 : a.year ≤ 9999 := le_trans (year_le_of_calLe a e hae) hy2
  have hyb1 : 1000 ≤ b.year := le_trans hy1 (year_le_of_calLe s b hsb)
  have hyb2 : b.year ≤ 9999 := le_trans (year_le_of_calLe b e hbe) hy2
  show lexLt _ _ = false
  exact lexLt_asymm _ _ (dlName_lexLt sc sp v a b hav hbv hya1 hya2 hyb1 hyb2 hab)

/-- C5, confirmed: for every valid date range with four-digit years, the
loader resolves exactly one file per calendar day of the inclusive range (the
date list starts at startdate, ends at enddate and steps one day at a time);
sorting the canonical per-day file names with np.sort leaves them in date
order; and concatenating per-day tables whose indexes are internally ordered
and pairwise chronologically non-overlapping yields a chronologically ordered
time index. -/
theorem sept_one_file_per_day_sorted_chronological
    (sc sp v : List Char) (s e : Date)
    (hs : s.Valid) (he : e.Valid) (hse : calLe s e)
    (hy1 : 1000 ≤ s.year) (hy2 : e.year ≤ 9999) :
    (dateRange s e).head? = some s ∧
    (dateRange s e).getLast? = some e ∧
    List.Chain' (fun a b => b = a.next) (dateRange s e) ∧
    List.insertionSort lexLe
        ((dateRange s e).map (fun d => dlNameChars sc sp v d.year d.doy)) =
      (dateRange s e).map (fun d => dlNameChars sc sp v d.year d.doy) ∧
    (∀ idxs : List (List ℚ), (∀ l ∈ idxs, l.Pairwise (fun x y => x ≤ y)) →
      idxs.Pairwise (fun l1 l2 => ∀ x ∈ l1, ∀ y ∈ l2, x ≤ y) →
      idxs.flatten.Pairwise (fun x y => x ≤ y)) := by
  obtain ⟨h1, h2, h3, _⟩ := dateRange_spec s e hs he hse
  refine ⟨h1, h2, h3, ?_, ?_⟩
  · exact (sept_filelist_sorted sc sp v s e hs he hse hy1 hy2).insertionSort_eq
  · intro idxs ha hb
    exact List.pairwise_flatten.2 ⟨ha, hb⟩

/-- C5, witness at the concrete two-day range 2010 days 107 and 108. -/
theorem sept_one_file_per_day_sorted_chronological_witness :
    (Date.mk 2010 107).Valid ∧ (Date.mk 2010 108).Valid ∧
    calLe ⟨2010, 107⟩ ⟨2010, 108⟩ ∧
    1000 ≤ (Date.mk 2010 107).year ∧ (Date.mk 2010 108).year ≤ 9999 ∧
    ((dateRange ⟨2010, 107⟩ ⟨2010, 108⟩).head? = some ⟨2010, 107⟩ ∧
    (dateRange ⟨2010, 107⟩ ⟨2010, 108⟩).getLast? = some ⟨2010, 108⟩ ∧
    List.Chain' (fun a b => b = a.next) (dateRange ⟨2010, 107⟩ ⟨2010, 108⟩) ∧
    List.insertionSort lexLe
        ((dateRange ⟨2010, 107⟩ ⟨2010, 108⟩).map
          (fun d => dlNameChars "ahead".data "ele".data "sun".data d.year d.doy)) =
      (dateRange ⟨2010, 107⟩ ⟨2010, 108⟩).map
        (fun d => dlNameChars "ahead".data "ele".data "sun".data d.year d.doy) ∧
    (∀ idxs : List (List ℚ), (∀ l ∈ idxs, l.Pairwise (fun x y => x ≤ y)) →
      idxs.Pairwise (fun l1 l2 => ∀ x ∈ l1, ∀ y ∈ l2, x ≤ y) →
      idxs.flatten.Pairwise (fun x y => x ≤ y))) :=
  ⟨by decide, by decide, by decide, by decide, by decide,
    sept_one_file_per_day_sorted_chronological "ahead".data "ele".data "sun".data
      ⟨2010, 107⟩ ⟨2010, 108⟩ (by decide) (by decide) (by decide) (by decide) (by decide)⟩

end StereoLoader
